import Mathlib

/-!
Verification of the template-directory rendering engine of
`msmbuilder/io/project_template.py`.

The Python source is shallowly embedded below:

* raw template text is `List Char` (Python `str`);
* Python slicing (including negative indices) is `pySlice`;
* `MetadataPackageLoader.get_source` is `get_source`;
* the four writer methods of `Template` are `write_python`, `write_shell`,
  `write_generic` and `write_ipython`, producing explicit traces of
  filesystem operations;
* `TemplateDir.render` / `render_files` become a state-passing interpreter
  over an explicit filesystem store, with exceptions as `Option RErr` and
  the trace of performed operations returned alongside the final state.

External collaborators (the jinja2 render engine, the yaml decoder, the
nbformat serializer, the OS) are modelled only through the facts the code
under verification relies on, as the spec prescribes.
-/

namespace ProjectTemplate

/-- Python `s.find(sub)`: least index at which `sub` occurs as a contiguous
sublist of `s`, `none` when there is no occurrence (Python returns `-1`).
Matches CPython semantics, including `find` of the empty string being `0`. -/
def firstOccur : List Char → List Char → Option Nat
  | [], sub => if sub.isPrefixOf [] then some 0 else none
  | c :: t, sub =>
    if sub.isPrefixOf (c :: t) then some 0
    else (firstOccur t sub).map fun i => i + 1

/-- Python slice-index normalization for a sequence of length `len`:
negative indices count from the end, and the result is clamped to
`[0, len]`. -/
def pyIdx (len : Nat) (i : Int) : Nat :=
  if i < 0 then ((len : Int) + i).toNat else min i.toNat len

/-- Python `s[a:b]` on a string of characters. -/
def pySlice (s : List Char) (a b : Int) : List Char :=
  (s.take (pyIdx s.length b)).drop (pyIdx s.length a)

/-- Python `s[a:]`. -/
def pySliceFrom (s : List Char) (a : Int) : List Char :=
  pySlice s a (s.length : Int)

/-- The begin marker `"Meta\n----\n"` from `MetadataPackageLoader.get_source`. -/
def beg_str : List Char := "Meta\n----\n".data

/-- The end marker `"\n\"\"\"\n"` from `MetadataPackageLoader.get_source`. -/
def end_str : List Char := "\n\"\"\"\n".data

/-- The value stored into `MetadataPackageLoader.meta` for one template:
either the empty mapping `{}` (no begin marker), or the result of
`yaml.load` on the extracted block. -/
inductive MetaVal where
  | empty : MetaVal
  | pyNone : MetaVal
  | decoded : List Char → MetaVal
deriving DecidableEq, Repr

/-- The structured-document decoder (`yaml.load`) is an external collaborator
per the spec; the embedding keeps the exact text handed to it.  The only
concrete fact about it used by the code is that the empty document decodes to
the Python value `None` rather than to a mapping. -/
def yamlLoad (block : List Char) : MetaVal :=
  if block = [] then MetaVal.pyNone else MetaVal.decoded block

/-- Result of `MetadataPackageLoader.get_source`: the (possibly rewritten)
template text handed on to jinja2, and the metadata value stored under the
template file name. -/
structure GetSourceResult where
  text : List Char
  meta : MetaVal
deriving DecidableEq, Repr

/-- Shallow embedding of `MetadataPackageLoader.get_source`
(project_template.py lines 110-125):

    beg = source.find(beg_str)
    if beg == -1:
        self.meta[filename] = {}
        return source, filename, uptodate
    end = source[beg:].find(end_str) + beg
    self.meta[filename] = yaml.load(source[beg + len(beg_str):end])
    remove_meta = source[:beg] + source[end:]
    return remove_meta, filename, uptodate

`end` is an honest Python integer: when the end marker is missing the inner
`find` yields `-1` and `end = beg - 1`, and the subsequent slices use Python
negative-index semantics, which `pySlice` reproduces.  `endIndex` is the
value of `end` given `beg`, `get_sourceAt` is the begin-marker-found branch,
and `get_source` is the whole method. -/
def endIndex (source : List Char) (beg : Nat) : Int :=
  match firstOccur (source.drop beg) end_str with
  | some j => (j : Int) + (beg : Int)
  | none => (beg : Int) - 1

def get_sourceAt (source : List Char) (beg : Nat) : GetSourceResult :=
  { text := pySlice source 0 (beg : Int) ++ pySliceFrom source (endIndex source beg)
    meta :=
      yamlLoad (pySlice source ((beg : Int) + (beg_str.length : Int))
        (endIndex source beg)) }

def get_source (source : List Char) : GetSourceResult :=
  match firstOccur source beg_str with
  | none => { text := source, meta := MetaVal.empty }
  | some beg => get_sourceAt source beg

/-- Python `s.replace(old, new)` for nonempty `old`: every non-overlapping
occurrence is replaced, scanning left to right.  The fuel argument
(initially the length of `s`) only makes the recursion structural; each step
consumes at least one character, so the fuel never runs out.  For empty
`old` (never used by the source) the text is returned unchanged. -/
def pyReplaceAux : Nat → List Char → List Char → List Char → List Char
  | 0, s, _, _ => s
  | fuel + 1, s, old, new =>
    match s with
    | [] => []
    | c :: t =>
      if old.isPrefixOf (c :: t) && !old.isEmpty then
        new ++ pyReplaceAux fuel ((c :: t).drop old.length) old new
      else
        c :: pyReplaceAux fuel t old new

def pyReplace (s old new : List Char) : List Char :=
  pyReplaceAux s.length s old new

/-- The characters Python `str.strip()` removes (ASCII whitespace; the
rendered templates contain no other whitespace code points). -/
def isPySpace (c : Char) : Bool :=
  c = ' ' || c = '\t' || c = '\n' || c = '\r' || c = '\x0b' || c = '\x0c'

/-- Python `s.strip()`. -/
def pyStrip (s : List Char) : List Char :=
  ((s.dropWhile isPySpace).reverse.dropWhile isPySpace).reverse

/-- Whether the regex `## (.*)\n` matches at the start of `s`: the literal
`"## "`, then a (possibly empty) greedy run of non-newline characters, then a
literal newline.  Since `.` cannot match a newline, the pattern matches at a
position exactly when `"## "` is a prefix and some newline occurs at or after
offset 3; the capture then runs up to the first such newline. -/
def headingMatch (s : List Char) : Bool :=
  "## ".data.isPrefixOf s && (s.drop 3).contains '\n'

/-- Python `re.split(r'## (.*)\n', rendered)`: the pieces of the text between
consecutive matches, interleaved with the captured group of each match, in
order.  Scanning is leftmost, and continues after the end of each match.
`acc` is the current between-matches piece, reversed; the fuel (initially the
length of the text) only makes the recursion structural, since every step
consumes at least one character. -/
def reSplitAux : Nat → List Char → List Char → List (List Char)
  | 0, s, acc => [acc.reverse ++ s]
  | fuel + 1, s, acc =>
    match s with
    | [] => [acc.reverse]
    | c :: t =>
      if headingMatch (c :: t) then
        acc.reverse :: (t.drop 2).takeWhile (fun x => x != '\n') ::
          reSplitAux fuel (((t.drop 2).dropWhile fun x => x != '\n').drop 1) []
      else
        reSplitAux fuel t (c :: acc)

def reSplitHeading (s : List Char) : List (List Char) :=
  reSplitAux s.length s []

/-- One cell of the produced notebook document.  The nbformat serializer is
an external collaborator; the embedding keeps the cell structure it is
handed. -/
inductive Cell where
  | markdown (text : List Char)
  | code (text : List Char)
deriving DecidableEq

/-- The notebook document handed to `nbformat.write`: the ordered cells plus
the fixed kernelspec metadata from `write_ipython`. -/
structure Notebook where
  cells : List Cell
  kernelName : List Char
  kernelDisplayName : List Char
deriving DecidableEq

/-- Python `zip(cell_texts[:-1:2], cell_texts[1::2])`: consecutive disjoint
pairs of the list, a trailing unpaired element being dropped (for a list of
even length `2k` both slices have `k` elements; for odd length `2k+1` the
last element is in neither slice). -/
def toPairs {α : Type} : List α → List (α × α)
  | a :: b :: t => (a, b) :: toPairs t
  | _ => []

/-- The cell list built by the loop in `write_ipython`: each (heading,
content) pair becomes one markdown cell `"## " + heading.strip()` followed by
one code cell `content.strip()`. -/
def pairCells : List (List Char × List Char) → List Cell
  | [] => []
  | (h, c) :: rest =>
    Cell.markdown ("## ".data ++ pyStrip h) :: Cell.code (pyStrip c) :: pairCells rest

/-- The writer-local filesystem operations a `Template.write_*` method
performs, in order, on names relative to the current working directory. -/
inductive WOp where
  | backupOp (name : List Char)
  | writeOp (name : List Char) (content : List Char)
  | chmodPlusX (name : List Char)
  | writeNotebook (name : List Char) (nb : Notebook)
deriving DecidableEq

/-- The notebook document built by `Template.write_ipython` (lines 168-178):
`cell_texts` is the `.ipynb` target name followed by the regex split of the
rendered text, consecutive pairs become markdown/code cells, and the
kernelspec metadata is fixed. -/
def ipynbDoc (templ_fn rendered : List Char) : Notebook :=
  { cells :=
      pairCells (toPairs
        (pyReplace templ_fn ".py".data ".ipynb".data :: reSplitHeading rendered))
    kernelName := "python3".data
    kernelDisplayName := "Python 3".data }

/-- Shallow embedding of `Template.write_ipython` (lines 165-181): the target
name is `templ_fn.replace('.py', '.ipynb')`, and the notebook document is
written to the target name after backing the target name up. -/
def write_ipython (templ_fn rendered : List Char) : List WOp :=
  [WOp.backupOp (pyReplace templ_fn ".py".data ".ipynb".data),
   WOp.writeNotebook (pyReplace templ_fn ".py".data ".ipynb".data)
     (ipynbDoc templ_fn rendered)]

/-- Shallow embedding of `Template.write_python` (lines 183-186). -/
def write_python (templ_fn rendered : List Char) : List WOp :=
  [WOp.backupOp templ_fn, WOp.writeOp templ_fn rendered]

/-- Shallow embedding of `Template.write_shell` (lines 188-192). -/
def write_shell (templ_fn rendered : List Char) : List WOp :=
  [WOp.backupOp templ_fn, WOp.writeOp templ_fn rendered, WOp.chmodPlusX templ_fn]

/-- Shallow embedding of `Template.write_generic` (lines 194-197). -/
def write_generic (templ_fn rendered : List Char) : List WOp :=
  [WOp.backupOp templ_fn, WOp.writeOp templ_fn rendered]

/-- The four write strategies of `Template`. -/
inductive WriterKind where
  | generic
  | python
  | shell
  | ipython
deriving DecidableEq

/-- The `write_funcs` dispatch table built in `Template.__init__` (lines
143-151): a defaultdict falling back to the generic writer, with `py` and
`sh` entries, and the `py` entry overridden to the notebook writer when the
`ipynb` flag is set. -/
def write_funcs (ipynb : Bool) (ext : List Char) : WriterKind :=
  if ext = "py".data then
    (if ipynb then WriterKind.ipython else WriterKind.python)
  else if ext = "sh".data then WriterKind.shell
  else WriterKind.generic

/-- Python `template_fn.split(".")[-1]`: the text after the last dot, the
whole name when there is no dot. -/
def pyExtLast (fn : List Char) : List Char :=
  (fn.reverse.takeWhile fun c => c != '.').reverse

/-- The writer selected for one `Template` (line 156):
`self.write_funcs[template_fn.split(".")[-1]]`. -/
def templateWriter (ipynb : Bool) (templ_fn : List Char) : WriterKind :=
  write_funcs ipynb (pyExtLast templ_fn)

/-- Dispatch from a selected writer kind to the writer method. -/
def runWriter : WriterKind → List Char → List Char → List WOp
  | WriterKind.python, fn, r => write_python fn r
  | WriterKind.shell, fn, r => write_shell fn r
  | WriterKind.generic, fn, r => write_generic fn r
  | WriterKind.ipython, fn, r => write_ipython fn r

/-- Python `os.path.basename` for the slash-separated names used by the
layout. -/
def pyBasename (p : List Char) : List Char :=
  (p.reverse.takeWhile fun c => c != '/').reverse

/-- Content of a regular file in the modelled filesystem: plain text, or a
serialized notebook document (the nbformat on-disk encoding is an external
collaborator, so the document is kept structured rather than serialized). -/
inductive FileVal where
  | text (c : List Char)
  | notebook (nb : Notebook)
deriving DecidableEq

/-- One filesystem entry: a regular file, a directory, or a symbolic link
holding its (relative) target string. -/
inductive FEntry where
  | file (v : FileVal)
  | dir
  | link (target : List Char)
deriving DecidableEq

/-- The modelled process state: the current working directory (as an
absolute path, one component per directory) and the filesystem store mapping
absolute paths to entries. -/
structure FS where
  cwd : List String
  store : List (List String × FEntry)
deriving DecidableEq

def lookupE : List (List String × FEntry) → List String → Option FEntry
  | [], _ => none
  | (k, v) :: t, p => if k = p then some v else lookupE t p

def removeE : List (List String × FEntry) → List String → List (List String × FEntry)
  | [], _ => []
  | (k, v) :: t, p => if k = p then removeE t p else (k, v) :: removeE t p

def setE (st : List (List String × FEntry)) (p : List String) (v : FEntry) :
    List (List String × FEntry) :=
  (p, v) :: removeE st p

/-- The absolute path of name `n` in the current working directory. -/
def absName (fs : FS) (n : String) : List String := fs.cwd ++ [n]

/-- Modelled from the spec: `backup` and `chmod_plus_x` are imported from
`msmbuilder.io.io`, which is not part of this source snapshot.  Per the
spec, `backup` renames an existing file or directory at the given name aside
to a backup name and does nothing when nothing exists at the name; the
concrete backup name is unspecified there and is modelled as the name with
`.bak` appended.  `chmod_plus_x` adds execute permission bits without
removing other bits; the store does not track permission bits, so only the
occurrence of the operation is recorded in the trace. -/
def bakName (n : String) : String := n ++ ".bak"

def doBackup (fs : FS) (n : String) : FS :=
  match lookupE fs.store (absName fs n) with
  | none => fs
  | some e =>
    { fs with
      store := setE (removeE fs.store (absName fs n)) (absName fs (bakName n)) e }

/-- One performed filesystem side effect, recorded with absolute paths; the
trace of these is what a run leaves behind besides the final state. -/
inductive Op where
  | backupOp (path : List String)
  | writeOp (path : List String) (v : FileVal)
  | chmodOp (path : List String)
  | symlinkOp (target : List Char) (path : List String)
  | mkdirOp (path : List String)
  | chdirOp (path : List String)
deriving DecidableEq

/-- Apply one writer-local operation in the current working directory,
returning the new state and the recorded trace entry. -/
def applyWOp (fs : FS) : WOp → FS × Op
  | WOp.backupOp n =>
    (doBackup fs (String.mk n), Op.backupOp (absName fs (String.mk n)))
  | WOp.writeOp n c =>
    ({ fs with
        store := setE fs.store (absName fs (String.mk n)) (FEntry.file (FileVal.text c)) },
     Op.writeOp (absName fs (String.mk n)) (FileVal.text c))
  | WOp.writeNotebook n nb =>
    ({ fs with
        store := setE fs.store (absName fs (String.mk n)) (FEntry.file (FileVal.notebook nb)) },
     Op.writeOp (absName fs (String.mk n)) (FileVal.notebook nb))
  | WOp.chmodPlusX n => (fs, Op.chmodOp (absName fs (String.mk n)))

def applyWOps : FS → List WOp → FS × List Op
  | fs, [] => (fs, [])
  | fs, op :: rest =>
    match applyWOp fs op with
    | (fs1, o) =>
      match applyWOps fs1 rest with
      | (fs2, os) => (fs2, o :: os)

/-- Split a slash-separated relative path into its segments. -/
def splitSlashAux : List Char → List Char → List String
  | [], acc => [String.mk acc.reverse]
  | c :: t, acc =>
    if c = '/' then String.mk acc.reverse :: splitSlashAux t []
    else splitSlashAux t (c :: acc)

def splitSlash (s : List Char) : List String := splitSlashAux s []

/-- Resolve a relative path (already split into segments) against a base
directory: `".."` ascends one level, any other segment descends. -/
def resolveRel (base : List String) : List String → List String
  | [] => base
  | seg :: rest =>
    if seg = ".." then resolveRel base.dropLast rest
    else resolveRel (base ++ [seg]) rest

/-- The OS bound on how many symbolic links a path resolution may traverse
(Linux ELOOP limit is 40); `os.path.exists` returns False when `os.stat`
fails, including on too many levels of links. -/
def linkFuel : Nat := 40

/-- Python `os.path.exists(p)`: True when the path resolves to an existing
file or directory, following symbolic links; False for a missing path and
for a broken (dangling) symbolic link. -/
def pathExists : Nat → List (List String × FEntry) → List String → Bool
  | 0, st, p =>
    (match lookupE st p with
     | some (FEntry.file _) => true
     | some FEntry.dir => true
     | _ => false)
  | fuel + 1, st, p =>
    match lookupE st p with
    | none => false
    | some (FEntry.file _) => true
    | some FEntry.dir => true
    | some (FEntry.link t) => pathExists fuel st (resolveRel p.dropLast (splitSlash t))

/-- Run-fatal exceptions of the render engine, mirroring the spec's error
taxonomy: template lookup failure, metadata decode failure, render failure,
and `FileExistsError` from `os.symlink` on an occupied name. -/
inductive RErr where
  | lookupErr (fn : String)
  | decodeErr (fn : String)
  | renderErr (fn : String)
  | fileExistsErr (path : List String)
deriving DecidableEq

/-- The link name `bn = os.path.basename(dep)` resolved against the current
working directory. -/
def depLinkName (fs : FS) (dep : String) : List String :=
  absName fs (String.mk (pyBasename dep.data))

/-- The link target `"../{}".format(dep)`. -/
def depLinkTarget (dep : String) : List Char := "../".data ++ dep.data

/-- The state after `os.symlink("../{}".format(dep), bn)` succeeds. -/
def fsWithLink (fs : FS) (dep : String) : FS :=
  { fs with
    store := setE fs.store (depLinkName fs dep) (FEntry.link (depLinkTarget dep)) }

/-- One step of the dependency-link loop in `TemplateDir.render` (lines
230-233):

    bn = os.path.basename(dep)
    if not os.path.exists(bn):
        os.symlink("../{}".format(dep), bn)

`os.path.exists` follows links (False for a dangling link), while
`os.symlink` raises `FileExistsError` whenever the name is occupied at all,
dangling link included. -/
def linkDep (fs : FS) (dep : String) : FS × List Op × Option RErr :=
  if pathExists linkFuel fs.store (depLinkName fs dep) then (fs, [], none)
  else if (lookupE fs.store (depLinkName fs dep)).isSome then
    (fs, [], some (RErr.fileExistsErr (depLinkName fs dep)))
  else
    (fsWithLink fs dep,
     [Op.symlinkOp (depLinkTarget dep) (depLinkName fs dep)], none)

def linkDeps : FS → List String → FS × List Op × Option RErr
  | fs, [] => (fs, [], none)
  | fs, d :: rest =>
    match linkDep fs d with
    | (fs1, ops1, some e) => (fs1, ops1, some e)
    | (fs1, ops1, none) =>
      match linkDeps fs1 rest with
      | (fs2, ops2, e) => (fs2, ops1 ++ ops2, e)

/-- What the backing template store and render engine (both external
collaborators) yield for one template name: the decoded `depends` entry of
its metadata (`none` when the metadata has no `depends` key) and the
rendered text (`none` when rendering raises). -/
structure TInfo where
  depends : Option (List String)
  rendered : Option (List Char)
deriving DecidableEq

/-- Outcome of constructing `Template(fn)`: the template name may have no
backing source (lookup error), its metadata block may fail to decode, or
construction succeeds with the template's data. -/
inductive TRes where
  | missing
  | badMeta
  | found (info : TInfo)
deriving DecidableEq

/-- The environment of backing template sources for one run. -/
def TEnv := String → TRes

/-- Python-set insertion: `depends` is a `set()`, so an element already
present is not added again. -/
def insertDep (a : List String) (d : String) : List String :=
  if a.contains d then a else a ++ [d]

/-- The contents of the `depends` set after `update`: deduplicated, kept as
a list only as the set's contents — the iteration order of the Python set is
supplied separately by an order oracle. -/
def unionDeps : List String → List String → List String
  | a, [] => a
  | a, d :: rest => unionDeps (insertDep a d) rest

/-- One iteration of the loop in `TemplateDir.render_files` (lines 219-226):
construct `Template(fn)` (template lookup + metadata decode), collect its
`depends` metadata, render it, and write it with the writer selected for the
file extension — the `ipynb` flag is left at its default `False`
(`templ = Template(fn)`), and the writer is invoked on
`os.path.basename(fn)`.  Any failure propagates as an exception before any
further effect. -/
def renderFile (env : TEnv) (fs : FS) (fn : String) :
    FS × List Op × List String × Option RErr :=
  match env fn with
  | TRes.missing => (fs, [], [], some (RErr.lookupErr fn))
  | TRes.badMeta => (fs, [], [], some (RErr.decodeErr fn))
  | TRes.found info =>
    match info.rendered with
    | none => (fs, [], info.depends.getD [], some (RErr.renderErr fn))
    | some text =>
      match applyWOps fs (runWriter (templateWriter false fn.data) (pyBasename fn.data) text) with
      | (fs1, ops) => (fs1, ops, info.depends.getD [], none)

/-- `TemplateDir.render_files` (lines 219-226): render each declared file in
declared order, accumulating the `depends` set; the first exception aborts
the loop and propagates. -/
def renderFiles (env : TEnv) : FS → List String → FS × List Op × List String × Option RErr
  | fs, [] => (fs, [], [], none)
  | fs, fn :: rest =>
    match renderFile env fs fn with
    | (fs1, ops1, deps1, some e) => (fs1, ops1, deps1, some e)
    | (fs1, ops1, deps1, none) =>
      match renderFiles env fs1 rest with
      | (fs2, ops2, deps2, e) => (fs2, ops1 ++ ops2, unionDeps deps1 deps2, e)

/-- The `TemplateDir` tree.  To keep every render function structurally
recursive (hence evaluable by the kernel), the subdirectory list is encoded
first-child/next-sibling: `TemplateDir.mk name files subs next` is the node
`TemplateDir(name, files, [...])` whose first child is `subs` and whose next
sibling is `next`, and `TemplateDir.nil` ends a sibling chain.  The layout
literals below mirror the nesting of `get_layout` in the source. -/
inductive TemplateDir where
  | nil : TemplateDir
  | mk (name : String) (files : List String) (subs : TemplateDir)
      (next : TemplateDir) : TemplateDir

/-- The state after `backup(subdir.name)`, `os.mkdir(subdir.name)` and
`os.chdir(subdir.name)`: the existing entry (if any) is renamed aside, a
fresh directory is created at the child's name, and the working directory
moves into it.  `pwd = os.path.abspath('.')` captured by the source before
the chdir is the original `fs.cwd`. -/
def fsEnterChild (fs : FS) (name : String) : FS :=
  { cwd := fs.cwd ++ [name]
    store := setE (doBackup fs name).store (absName fs name) FEntry.dir }

/-- The trace of the three preparation steps for one child directory. -/
def preOps (fs : FS) (name : String) : List Op :=
  [Op.backupOp (absName fs name), Op.mkdirOp (absName fs name),
   Op.chdirOp (fs.cwd ++ [name])]

/-- The loop body of `TemplateDir.render` over `self.subdirs` (lines
234-240), iterated along a sibling chain:

    backup(subdir.name)
    os.mkdir(subdir.name)
    pwd = os.path.abspath('.')
    os.chdir(subdir.name)
    subdir.render()
    os.chdir(pwd)

The child's own render is inlined (render_files, then the dependency links,
then its children).  When any step raises, the exception propagates at once:
in particular, when `subdir.render()` raises, the trailing `os.chdir(pwd)`
is not executed — there is no try/finally — so the working directory is left
wherever the failure occurred, and no later sibling is rendered. -/
def renderChain (env : TEnv) (oracle : List String → List String) :
    TemplateDir → FS → FS × List Op × Option RErr
  | TemplateDir.nil, fs => (fs, [], none)
  | TemplateDir.mk name files subs next, fs =>
    match renderFiles env (fsEnterChild fs name) files with
    | (fs4, ops4, _, some e) => (fs4, preOps fs name ++ ops4, some e)
    | (fs4, ops4, deps, none) =>
      match linkDeps fs4 (oracle deps) with
      | (fs5, ops5, some e) => (fs5, preOps fs name ++ ops4 ++ ops5, some e)
      | (fs5, ops5, none) =>
        match renderChain env oracle subs fs5 with
        | (fs6, ops6, some e) =>
          (fs6, preOps fs name ++ ops4 ++ ops5 ++ ops6, some e)
        | (fs6, ops6, none) =>
          match renderChain env oracle next { fs6 with cwd := fs.cwd } with
          | (fs8, ops8, e) =>
            (fs8,
             preOps fs name ++ ops4 ++ ops5 ++ ops6 ++ [Op.chdirOp fs.cwd] ++ ops8,
             e)

/-- `TemplateDir.render` (lines 228-240) of the node at the head of a chain
(the root call ignores any `next`): render the node's own files, create the
collected dependency links — iterating the `depends` set in the
set-iteration order supplied by `oracle` — then render the children. -/
def TemplateDir.render (env : TEnv) (oracle : List String → List String) :
    TemplateDir → FS → FS × List Op × Option RErr
  | TemplateDir.nil, fs => (fs, [], none)
  | TemplateDir.mk _ files subs _, fs =>
    match renderFiles env fs files with
    | (fs1, ops1, _, some e) => (fs1, ops1, some e)
    | (fs1, ops1, deps, none) =>
      match linkDeps fs1 (oracle deps) with
      | (fs2, ops2, some e) => (fs2, ops1 ++ ops2, some e)
      | (fs2, ops2, none) =>
        match renderChain env oracle subs fs2 with
        | (fs3, ops3, e) => (fs3, ops1 ++ ops2 ++ ops3, e)

/-- The `tica_msm` subtree of `get_layout` (lines 21-50). -/
def tica_msm : TemplateDir :=
  TemplateDir.mk "tica"
    ["tica/tica.py", "tica/tica-plot.py", "tica/tica-sample-coordinate.py",
     "tica/tica-sample-coordinate-plot.py"]
    (TemplateDir.mk "cluster"
      ["tica/cluster/cluster.py", "tica/cluster/cluster-plot.py"]
      (TemplateDir.mk "msm"
        ["tica/cluster/msm/msm-1-timescales.py",
         "tica/cluster/msm/msm-1-timescales-plot.py",
         "tica/cluster/msm/msm-2-microstate.py",
         "tica/cluster/msm/msm-2-microstate-plot.py"]
        TemplateDir.nil TemplateDir.nil)
      TemplateDir.nil)
    TemplateDir.nil

/-- The static layout tree built by `get_layout` (lines 20-94). -/
def get_layout : TemplateDir :=
  TemplateDir.mk ""
    ["0-test-install.py", "1-get-example-data.py", "README.md"]
    (TemplateDir.mk "analysis"
      ["analysis/gather-metadata.py", "analysis/gather-metadata-plot.py"]
      (TemplateDir.mk "rmsd"
        ["analysis/rmsd/rmsd.py", "analysis/rmsd/rmsd-plot.py"]
        TemplateDir.nil
        (TemplateDir.mk "landmarks"
          ["analysis/landmarks/featurize.py", "analysis/landmarks/featurize-plot.py"]
          tica_msm
          (TemplateDir.mk "dihedrals"
            ["analysis/dihedrals/featurize.py", "analysis/dihedrals/featurize-plot.py"]
            tica_msm
            TemplateDir.nil)))
      TemplateDir.nil)
    TemplateDir.nil

/-- `TemplateProject.do()` (lines 97-104): build the layout and render it in
the caller's current directory.  (`do` is a Lean keyword, hence the
underscore.) -/
def TemplateProject_do (env : TEnv) (oracle : List String → List String)
    (fs : FS) : FS × List Op × Option RErr :=
  TemplateDir.render env oracle get_layout fs

/-- Whether constructing and rendering `Template(fn)` raises: the template
name has no backing source, its metadata fails to decode, or the render
engine fails on it. -/
def fileFails (env : TEnv) (fn : String) : Bool :=
  match env fn with
  | TRes.missing => true
  | TRes.badMeta => true
  | TRes.found info => info.rendered.isNone

/-- The trace operations a writer method can perform (backup, plain write,
chmod): no symlink, no mkdir, no chdir. -/
def isWriterOp : Op → Bool
  | Op.backupOp _ => true
  | Op.writeOp _ _ => true
  | Op.chmodOp _ => true
  | _ => false

/-- Whether a trace operation writes a notebook document. -/
def isNbWrite : Op → Bool
  | Op.writeOp _ (FileVal.notebook _) => true
  | _ => false

/-- Whether a writer-local operation writes a notebook document. -/
def wopIsNb : WOp → Bool
  | WOp.writeNotebook _ _ => true
  | _ => false

/-- The path of a mkdir trace entry, `none` for any other operation. -/
def mkdirOf : Op → Option (List String)
  | Op.mkdirOp p => some p
  | _ => none

/-- The path of a symlink trace entry, `none` for any other operation. -/
def symlinkOf : Op → Option (List String)
  | Op.symlinkOp _ p => some p
  | _ => none

/-- The first child of a node (empty chain for the chain terminator). -/
def subsOf : TemplateDir → TemplateDir
  | TemplateDir.nil => TemplateDir.nil
  | TemplateDir.mk _ _ subs _ => subs

/-- The directories a successful render of the sibling chain `t`, started in
working directory `cwd`, must create, in order: each node's own directory,
then recursively its children's, then the following siblings'. -/
def mkdirPlanChain (cwd : List String) : TemplateDir → List (List String)
  | TemplateDir.nil => []
  | TemplateDir.mk name _ subs next =>
    (cwd ++ [name]) :: (mkdirPlanChain (cwd ++ [name]) subs ++ mkdirPlanChain cwd next)

/-- An environment whose every template renders, used for successful-run
witnesses. -/
def envAllOk : TEnv := fun _ =>
  TRes.found { depends := none, rendered := some "T".data }

/-- An environment in which exactly the template `child/bad.py` is missing
from the backing store. -/
def envChildBad : TEnv := fun fn =>
  if fn = "child/bad.py" then TRes.missing
  else TRes.found { depends := none, rendered := some "T".data }

/-- A root layout with a single child directory `child` declaring the single
file `child/bad.py`. -/
def dirChildBad : TemplateDir :=
  TemplateDir.mk "" []
    (TemplateDir.mk "child" ["child/bad.py"] TemplateDir.nil TemplateDir.nil)
    TemplateDir.nil

/-- An environment for the dependency-order runs: `f1.py` declares the
dependency `a.txt`, `f2.py` declares `b.txt`. -/
def envTwoDeps : TEnv := fun fn =>
  if fn = "f1.py" then TRes.found { depends := some ["a.txt"], rendered := some "x".data }
  else if fn = "f2.py" then
    TRes.found { depends := some ["b.txt"], rendered := some "y".data }
  else TRes.found { depends := none, rendered := some "z".data }

/-- A single node declaring `f1.py` and `f2.py` and no children. -/
def dirTwoDeps : TemplateDir :=
  TemplateDir.mk "" ["f1.py", "f2.py"] TemplateDir.nil TemplateDir.nil

/-- An environment in which exactly the template `c.py` is missing. -/
def envThirdBad : TEnv := fun fn =>
  if fn = "c.py" then TRes.missing
  else TRes.found { depends := some ["dep.txt"], rendered := some "T".data }

/-- A root with two child directories `one` and `two`, used for the
declared-order witness. -/
def dirTwoChildren : TemplateDir :=
  TemplateDir.mk "" ["top.py"]
    (TemplateDir.mk "one" ["one/a.py"] TemplateDir.nil
      (TemplateDir.mk "two" ["two/b.py"] TemplateDir.nil TemplateDir.nil))
    TemplateDir.nil

example :
    get_source "print(1)\n".data = { text := "print(1)\n".data, meta := MetaVal.empty } := by
  decide

example :
    get_source "A\nMeta\n----\nk: v\n\"\"\"\nB".data =
      { text := "A\n\n\"\"\"\nB".data, meta := MetaVal.decoded "k: v".data } := by
  decide

example :
    reSplitHeading "## Setup\nimport os\n## Run\nprint(1)\n".data =
      [[], "Setup".data, "import os\n".data, "Run".data, "print(1)\n".data] := by
  decide

theorem isPrefixOf_of_firstOccur :
    ∀ (s sub : List Char) (i : Nat), firstOccur s sub = some i →
      sub.isPrefixOf (s.drop i) = true := by
  intro s
  induction s with
  | nil =>
    intro sub i h
    simp only [firstOccur] at h
    split at h
    · next hp => injection h with h2; subst h2; simpa using hp
    · exact absurd h (by simp)
  | cons c t ih =>
    intro sub i h
    simp only [firstOccur] at h
    split at h
    · next hp => injection h with h2; subst h2; simpa using hp
    · obtain ⟨j, hfo, hji⟩ := Option.map_eq_some'.mp h
      subst hji
      have hj := ih sub j hfo
      simpa [List.drop_succ_cons] using hj

theorem firstOccur_add_length_le (s sub : List Char) (i : Nat) (hsub : sub ≠ [])
    (h : firstOccur s sub = some i) : i + sub.length ≤ s.length := by
  have hp := isPrefixOf_of_firstOccur s sub i h
  have hpre : sub <+: s.drop i := List.isPrefixOf_iff_prefix.mp hp
  have hlen := hpre.length_le
  rw [List.length_drop] at hlen
  have hpos : 0 < sub.length := List.length_pos.mpr hsub
  omega

theorem pyIdx_natCast (len b : Nat) (hb : b ≤ len) : pyIdx len (b : Int) = b := by
  unfold pyIdx
  rw [if_neg (by omega), Int.toNat_natCast]
  exact min_eq_left hb

theorem pySlice_zero_natCast (s : List Char) (b : Nat) (hb : b ≤ s.length) :
    pySlice s 0 (b : Int) = s.take b := by
  unfold pySlice
  have h0 : ((0 : Nat) : Int) = (0 : Int) := rfl
  rw [← h0, pyIdx_natCast _ _ (Nat.zero_le _), pyIdx_natCast _ _ hb, List.drop_zero]

theorem pySliceFrom_natCast (s : List Char) (a : Nat) (ha : a ≤ s.length) :
    pySliceFrom s (a : Int) = s.drop a := by
  unfold pySliceFrom pySlice
  rw [pyIdx_natCast _ _ (le_refl _), pyIdx_natCast _ _ ha, List.take_length]

theorem pySlice_natCast (s : List Char) (a b : Nat) (ha : a ≤ s.length)
    (hb : b ≤ s.length) : pySlice s (a : Int) (b : Int) = (s.take b).drop a := by
  unfold pySlice
  rw [pyIdx_natCast _ _ ha, pyIdx_natCast _ _ hb]

/-- C5: for every template source in which the begin marker `"Meta\n----\n"` is
absent, `MetadataPackageLoader.get_source` returns the original source text
unchanged and records the empty mapping `{}` as the metadata for that
template.  The embedding is total, so no error is raised on this path. -/
theorem C5_absent_marker_noop (source : List Char)
    (h : firstOccur source beg_str = none) :
    get_source source = { text := source, meta := MetaVal.empty } := by
  unfold get_source
  rw [h]

theorem C5_absent_marker_noop_witness :
    firstOccur "import os\nprint(1)\n".data beg_str = none ∧
      get_source "import os\nprint(1)\n".data =
        { text := "import os\nprint(1)\n".data, meta := MetaVal.empty } :=
  ⟨by decide, C5_absent_marker_noop _ (by decide)⟩

/-- C3 is false as stated.  For the source
`"A\nMeta\n----\nk: v\n\"\"\"\nB"` the begin marker occurs at index 2 and the
end marker at offset 14 after it, yet the returned text is
`"A\n\n\"\"\"\nB"`: the end marker `"\n\"\"\"\n"` is still present (at index
2 of the result), so the marker-delimited span is not removed with both
markers included, and the text is not `"A\nB"`. -/
theorem C3_counterexample :
    firstOccur "A\nMeta\n----\nk: v\n\"\"\"\nB".data beg_str = some 2 ∧
    firstOccur ("A\nMeta\n----\nk: v\n\"\"\"\nB".data.drop 2) end_str = some 14 ∧
    (get_source "A\nMeta\n----\nk: v\n\"\"\"\nB".data).text = "A\n\n\"\"\"\nB".data ∧
    firstOccur (get_source "A\nMeta\n----\nk: v\n\"\"\"\nB".data).text end_str = some 2 ∧
    (get_source "A\nMeta\n----\nk: v\n\"\"\"\nB".data).text ≠ "A\nB".data ∧
    (get_source "A\nMeta\n----\nk: v\n\"\"\"\nB".data).meta = MetaVal.decoded "k: v".data := by
  decide

/-- C3 amended: when the begin marker occurs at index `beg` and the end marker
occurs at offset `j` inside `source[beg:]`, the returned text is the source
with the span from the begin marker up to but excluding the end marker
removed — the end marker itself is retained — and the block handed to the
yaml decoder is exactly the text strictly between the two markers. -/
theorem C3_amended_extract (source : List Char) (beg j : Nat)
    (hbeg : firstOccur source beg_str = some beg)
    (hend : firstOccur (source.drop beg) end_str = some j) :
    (get_source source).text = source.take beg ++ source.drop (beg + j) ∧
    (get_source source).meta =
      yamlLoad ((source.drop (beg + beg_str.length)).take (j - beg_str.length)) := by
  have h10 : beg + beg_str.length ≤ source.length :=
    firstOccur_add_length_le _ _ _ (by decide) hbeg
  have hj5 : j + end_str.length ≤ (source.drop beg).length :=
    firstOccur_add_length_le _ _ _ (by decide) hend
  rw [List.length_drop] at hj5
  have hbl : beg_str.length = 10 := by decide
  have hel : end_str.length = 5 := by decide
  rw [hbl] at h10
  rw [hel] at hj5
  have hbegle : beg ≤ source.length := by omega
  have hbj : beg + j ≤ source.length := by omega
  have hget : get_source source = get_sourceAt source beg := by
    unfold get_source; rw [hbeg]
  have hendI : endIndex source beg = ((beg + j : Nat) : Int) := by
    unfold endIndex; rw [hend]; push_cast; ring
  have e1 : ((beg : Int) + (beg_str.length : Int)) = ((beg + 10 : Nat) : Int) := by
    rw [hbl]; push_cast; ring
  rw [hget]
  unfold get_sourceAt
  rw [hendI, e1]
  constructor
  · rw [pySlice_zero_natCast _ _ hbegle, pySliceFrom_natCast _ _ hbj]
  · rw [pySlice_natCast _ _ _ (by omega) hbj, hbl]
    rw [List.drop_take]
    have harith : beg + j - (beg + 10) = j - 10 := by omega
    rw [harith]

theorem C3_amended_extract_witness :
    firstOccur "A\nMeta\n----\nk: v\n\"\"\"\nB".data beg_str = some 2 ∧
    firstOccur ("A\nMeta\n----\nk: v\n\"\"\"\nB".data.drop 2) end_str = some 14 ∧
    ((get_source "A\nMeta\n----\nk: v\n\"\"\"\nB".data).text =
      "A\nMeta\n----\nk: v\n\"\"\"\nB".data.take 2 ++
        "A\nMeta\n----\nk: v\n\"\"\"\nB".data.drop 16 ∧
    (get_source "A\nMeta\n----\nk: v\n\"\"\"\nB".data).meta =
      yamlLoad (("A\nMeta\n----\nk: v\n\"\"\"\nB".data.drop (2 + beg_str.length)).take
        (14 - beg_str.length))) :=
  ⟨by decide, by decide, C3_amended_extract _ 2 14 (by decide) (by decide)⟩

/-- C9 as stated is false at a source that begins with the begin marker:
for `source = "Meta\n----\nabc"` (begin marker at index 0, no end marker),
Python evaluates `end = -1`, the block handed to yaml is `source[10:-1] =
"ab"` — not the empty substring, so the stored metadata is the decoded value
`"ab"`, not `None` — and the returned text is `source[:0] + source[-1:] =
"c"`: the marker is not left in place and no character is duplicated. -/
theorem C9_counterexample :
    firstOccur "Meta\n----\nabc".data beg_str = some 0 ∧
    firstOccur ("Meta\n----\nabc".data.drop 0) end_str = none ∧
    (get_source "Meta\n----\nabc".data).text = "c".data ∧
    firstOccur (get_source "Meta\n----\nabc".data).text beg_str = none ∧
    (get_source "Meta\n----\nabc".data).meta = MetaVal.decoded "ab".data ∧
    MetaVal.decoded "ab".data ≠ MetaVal.pyNone := by
  decide

/-- C9 amended: when the begin marker occurs at a positive index `beg` (so at
least one character precedes it) and the end marker does not occur at or
after it, extraction does not raise: `end` evaluates to `beg - 1`, the block
handed to yaml is the empty substring so the stored metadata is Python
`None`, and the returned text is `source[:beg] + source[beg-1:]`, duplicating
the character immediately before the begin marker while leaving the marker
and all following text in place. -/
theorem C9_amended_missing_end (source : List Char) (beg : Nat)
    (hbeg : firstOccur source beg_str = some beg) (hpos : 1 ≤ beg)
    (hend : firstOccur (source.drop beg) end_str = none) :
    (get_source source).text = source.take beg ++ source.drop (beg - 1) ∧
    (get_source source).meta = MetaVal.pyNone := by
  have h10 : beg + beg_str.length ≤ source.length :=
    firstOccur_add_length_le _ _ _ (by decide) hbeg
  have hbl : beg_str.length = 10 := by decide
  rw [hbl] at h10
  have hbegle : beg ≤ source.length := by omega
  have hget : get_source source = get_sourceAt source beg := by
    unfold get_source; rw [hbeg]
  have hendI : endIndex source beg = ((beg - 1 : Nat) : Int) := by
    unfold endIndex
    rw [hend]
    show ((beg : Int) - 1) = ((beg - 1 : Nat) : Int)
    omega
  have e1 : ((beg : Int) + (beg_str.length : Int)) = ((beg + 10 : Nat) : Int) := by
    rw [hbl]; push_cast; ring
  rw [hget]
  unfold get_sourceAt
  rw [hendI, e1]
  constructor
  · rw [pySlice_zero_natCast _ _ hbegle, pySliceFrom_natCast _ _ (by omega)]
  · rw [pySlice_natCast _ _ _ (by omega) (by omega)]
    have hnil : (source.take (beg - 1)).drop (beg + 10) = [] :=
      List.drop_eq_nil_of_le (by rw [List.length_take]; omega)
    rw [hnil]
    rfl

/-- C1 is false as stated: for the rendered text
`"## Setup\nimport os\n## Run\nprint(1)\n"` and file `cluster.py`, the
notebook produced by `write_ipython` contains three markdown/code cell
pairs, not two — the seed title always becomes the first heading, paired
with the (here empty) text before the first real heading — and the seeded
title is the `.ipynb` target name `cluster.ipynb`, not the original `.py`
file name. -/
theorem C1_counterexample :
    (ipynbDoc "cluster.py".data "## Setup\nimport os\n## Run\nprint(1)\n".data).cells.length = 6 ∧
    (ipynbDoc "cluster.py".data "## Setup\nimport os\n## Run\nprint(1)\n".data).cells.length ≠ 2 * 2 ∧
    (ipynbDoc "cluster.py".data "## Setup\nimport os\n## Run\nprint(1)\n".data).cells.take 2 =
      [Cell.markdown "## cluster.ipynb".data, Cell.code []] ∧
    "## cluster.ipynb".data ≠ "## cluster.py".data := by
  decide

/-- C1 amended: for the rendered text
`"## Setup\nimport os\n## Run\nprint(1)\n"` and file `cluster.py` in
notebook mode, the writer backs up and writes the file name
`cluster.ipynb`, and the notebook holds exactly three markdown/code cell
pairs: the seed pair (markdown `## cluster.ipynb` — the `.ipynb` target
name, which always becomes the first heading — with empty code, the text
before the first heading), then markdown `## Setup` with code `import os`,
then markdown `## Run` with code `print(1)`, under the fixed python3
kernelspec. -/
theorem C1_amended_notebook_conversion :
    write_ipython "cluster.py".data "## Setup\nimport os\n## Run\nprint(1)\n".data =
      [WOp.backupOp "cluster.ipynb".data,
       WOp.writeNotebook "cluster.ipynb".data
         { cells :=
             [Cell.markdown "## cluster.ipynb".data, Cell.code [],
              Cell.markdown "## Setup".data, Cell.code "import os".data,
              Cell.markdown "## Run".data, Cell.code "print(1)".data]
           kernelName := "python3".data
           kernelDisplayName := "Python 3".data }] := by
  decide

/-- C2 is false as stated: when the recursive render of the child `child`
fails (its declared template `child/bad.py` has no backing source), the
error propagates out of the root render while the working directory is
still `base/child` — the prior working directory `base` is not restored,
because `TemplateDir.render` has no try/finally around `subdir.render()`. -/
theorem C2_counterexample :
    (TemplateDir.render envChildBad (fun l => l) dirChildBad
        { cwd := ["base"], store := [] }).2.2 = some (RErr.lookupErr "child/bad.py") ∧
    (TemplateDir.render envChildBad (fun l => l) dirChildBad
        { cwd := ["base"], store := [] }).1.cwd = ["base", "child"] ∧
    (["base", "child"] : List String) ≠ ["base"] := by
  decide

/-- C4 is false as stated: dependency symlinks are created by iterating the
Python set `depends`, so their order is whatever order the set yields, not
declaration order.  Both `[a.txt, b.txt]` and its reverse are orders of the
same two-element set (they are permutations of each other); two error-free
runs of the same one-node layout under these two set-iteration orders
create the two symlinks in opposite orders, so the symlink order is not
determined by the declared layout. -/
theorem C4_counterexample :
    List.Perm (["a.txt", "b.txt"] : List String).reverse ["a.txt", "b.txt"] ∧
    (TemplateDir.render envTwoDeps (fun l => l) dirTwoDeps
        { cwd := ["w"], store := [] }).2.2 = none ∧
    (TemplateDir.render envTwoDeps (fun l => l.reverse) dirTwoDeps
        { cwd := ["w"], store := [] }).2.2 = none ∧
    ((TemplateDir.render envTwoDeps (fun l => l) dirTwoDeps
        { cwd := ["w"], store := [] }).2.1).filterMap symlinkOf =
      [["w", "a.txt"], ["w", "b.txt"]] ∧
    ((TemplateDir.render envTwoDeps (fun l => l.reverse) dirTwoDeps
        { cwd := ["w"], store := [] }).2.1).filterMap symlinkOf =
      [["w", "b.txt"], ["w", "a.txt"]] ∧
    (TemplateDir.render envTwoDeps (fun l => l) dirTwoDeps
        { cwd := ["w"], store := [] }).2.1 ≠
      (TemplateDir.render envTwoDeps (fun l => l.reverse) dirTwoDeps
        { cwd := ["w"], store := [] }).2.1 := by
  decide

/-- C6 is false as stated: when the dependency does not resolve to an
existing ancestor file, the first invocation creates a dangling symlink,
and the second invocation raises `FileExistsError` instead of being a
no-op — `os.path.exists` returns False for the dangling link, so the code
calls `os.symlink` on an occupied name. -/
theorem C6_counterexample :
    linkDep { cwd := ["r", "d"], store := [] } "data.txt" =
      ({ cwd := ["r", "d"],
         store := [(["r", "d", "data.txt"], FEntry.link "../data.txt".data)] },
       [Op.symlinkOp "../data.txt".data ["r", "d", "data.txt"]], none) ∧
    linkDep
        { cwd := ["r", "d"],
          store := [(["r", "d", "data.txt"], FEntry.link "../data.txt".data)] }
        "data.txt" =
      ({ cwd := ["r", "d"],
         store := [(["r", "d", "data.txt"], FEntry.link "../data.txt".data)] },
       [], some (RErr.fileExistsErr ["r", "d", "data.txt"])) := by
  decide

theorem C9_amended_missing_end_witness :
    firstOccur "xMeta\n----\ntail".data beg_str = some 1 ∧ 1 ≤ 1 ∧
    firstOccur ("xMeta\n----\ntail".data.drop 1) end_str = none ∧
    ((get_source "xMeta\n----\ntail".data).text =
      "xMeta\n----\ntail".data.take 1 ++ "xMeta\n----\ntail".data.drop 0 ∧
    (get_source "xMeta\n----\ntail".data).meta = MetaVal.pyNone) :=
  ⟨by decide, le_refl 1, by decide,
    C9_amended_missing_end _ 1 (by decide) (le_refl 1) (by decide)⟩

theorem applyWOp_cwd (fs : FS) (op : WOp) : (applyWOp fs op).1.cwd = fs.cwd := by
  cases op with
  | backupOp n =>
    show (doBackup fs (String.mk n)).cwd = fs.cwd
    unfold doBackup
    split <;> rfl
  | writeOp n c => rfl
  | writeNotebook n nb => rfl
  | chmodPlusX n => rfl

theorem applyWOps_cwd :
    ∀ (wops : List WOp) (fs : FS), (applyWOps fs wops).1.cwd = fs.cwd := by
  intro wops
  induction wops with
  | nil => intro fs; rfl
  | cons op rest ih =>
    intro fs
    calc (applyWOps fs (op :: rest)).1.cwd
        = (applyWOps (applyWOp fs op).1 rest).1.cwd := rfl
      _ = (applyWOp fs op).1.cwd := ih _
      _ = fs.cwd := applyWOp_cwd fs op

theorem renderFile_cwd (env : TEnv) (fs : FS) (fn : String) :
    (renderFile env fs fn).1.cwd = fs.cwd := by
  rcases henv : env fn with _ | _ | info
  · simp only [renderFile, henv]
  · simp only [renderFile, henv]
  · rcases hri : info.rendered with _ | text
    · simp only [renderFile, henv, hri]
    · simp only [renderFile, henv, hri]
      exact applyWOps_cwd _ fs

theorem renderFiles_cwd (env : TEnv) :
    ∀ (files : List String) (fs : FS), (renderFiles env fs files).1.cwd = fs.cwd := by
  intro files
  induction files with
  | nil => intro fs; rfl
  | cons fn rest ih =>
    intro fs
    have h1 := renderFile_cwd env fs fn
    rcases hrf : renderFile env fs fn with ⟨fs1, ops1, deps1, e1⟩
    rw [hrf] at h1
    simp only at h1
    cases e1 with
    | some e =>
      simp only [renderFiles, hrf]
      exact h1
    | none =>
      have h2 := ih fs1
      rcases hrr : renderFiles env fs1 rest with ⟨fs2, ops2, deps2, e2⟩
      rw [hrr] at h2
      simp only at h2
      simp only [renderFiles, hrf, hrr]
      exact h2.trans h1

theorem linkDep_cwd (fs : FS) (dep : String) : (linkDep fs dep).1.cwd = fs.cwd := by
  unfold linkDep
  split
  · rfl
  · split <;> rfl

theorem linkDeps_cwd :
    ∀ (l : List String) (fs : FS), (linkDeps fs l).1.cwd = fs.cwd := by
  intro l
  induction l with
  | nil => intro fs; rfl
  | cons d rest ih =>
    intro fs
    have h1 := linkDep_cwd fs d
    rcases hld : linkDep fs d with ⟨fs1, ops1, e1⟩
    rw [hld] at h1
    simp only at h1
    cases e1 with
    | some e =>
      simp only [linkDeps, hld]
      exact h1
    | none =>
      have h2 := ih fs1
      rcases hlr : linkDeps fs1 rest with ⟨fs2, ops2, e2⟩
      rw [hlr] at h2
      simp only at h2
      simp only [linkDeps, hld, hlr]
      exact h2.trans h1

theorem renderChain_cwd_ok (env : TEnv) (oracle : List String → List String) :
    ∀ (t : TemplateDir) (fs : FS),
      (renderChain env oracle t fs).2.2 = none →
      (renderChain env oracle t fs).1.cwd = fs.cwd := by
  intro t
  induction t with
  | nil => intro fs _; rfl
  | mk name files subs next ihs ihn =>
    intro fs h
    rcases h4 : renderFiles env (fsEnterChild fs name) files with ⟨fs4, ops4, deps4, e4⟩
    cases e4 with
    | some e =>
      simp only [renderChain, h4] at h
      exact Option.noConfusion h
    | none =>
      rcases h5 : linkDeps fs4 (oracle deps4) with ⟨fs5, ops5, e5⟩
      cases e5 with
      | some e =>
        simp only [renderChain, h4, h5] at h
        exact Option.noConfusion h
      | none =>
        rcases h6 : renderChain env oracle subs fs5 with ⟨fs6, ops6, e6⟩
        cases e6 with
        | some e =>
          simp only [renderChain, h4, h5, h6] at h
          exact Option.noConfusion h
        | none =>
          rcases hr : renderChain env oracle next { fs6 with cwd := fs.cwd } with
            ⟨fs8, ops8, e8⟩
          simp only [renderChain, h4, h5, h6, hr] at h ⊢
          have h8 := ihn { fs6 with cwd := fs.cwd }
          rw [hr] at h8
          simp only at h8
          exact h8 h

/-- C2 amended: the working directory saved before descending into a child
is restored after the child's recursive render on the success path; when the
recursive render raises, the error propagates without the prior working
directory being restored (there is no try/finally), as `C2_counterexample`
shows.  Stated for the whole render: any render that completes without
error leaves the working directory where it started, at every level. -/
theorem C2_amended_cwd_restored_on_success (env : TEnv)
    (oracle : List String → List String) (d : TemplateDir) (fs : FS)
    (h : (TemplateDir.render env oracle d fs).2.2 = none) :
    (TemplateDir.render env oracle d fs).1.cwd = fs.cwd := by
  cases d with
  | nil => rfl
  | mk name files subs next =>
    have hf := renderFiles_cwd env files fs
    rcases h1 : renderFiles env fs files with ⟨fs1, ops1, deps1, e1⟩
    rw [h1] at hf
    simp only at hf
    cases e1 with
    | some e =>
      simp only [TemplateDir.render, h1] at h
      exact Option.noConfusion h
    | none =>
      have hl := linkDeps_cwd (oracle deps1) fs1
      rcases h2 : linkDeps fs1 (oracle deps1) with ⟨fs2, ops2, e2⟩
      rw [h2] at hl
      simp only at hl
      cases e2 with
      | some e =>
        simp only [TemplateDir.render, h1, h2] at h
        exact Option.noConfusion h
      | none =>
        have hc := renderChain_cwd_ok env oracle subs fs2
        rcases h3 : renderChain env oracle subs fs2 with ⟨fs3, ops3, e3⟩
        rw [h3] at hc
        simp only at hc
        simp only [TemplateDir.render, h1, h2, h3] at h ⊢
        rw [hc h, hl, hf]

theorem C2_amended_cwd_restored_on_success_witness :
    (TemplateDir.render envAllOk (fun l => l) dirTwoChildren
        { cwd := ["base"], store := [] }).2.2 = none ∧
    (TemplateDir.render envAllOk (fun l => l) dirTwoChildren
        { cwd := ["base"], store := [] }).1.cwd = ["base"] :=
  ⟨by decide,
   C2_amended_cwd_restored_on_success envAllOk (fun l => l) dirTwoChildren
     { cwd := ["base"], store := [] } (by decide)⟩

theorem pathExists_none (n : Nat) (st : List (List String × FEntry))
    (p : List String) (h : lookupE st p = none) : pathExists n st p = false := by
  cases n <;> simp [pathExists, h]

theorem pathExists_file (n : Nat) (st : List (List String × FEntry))
    (p : List String) (v : FileVal) (h : lookupE st p = some (FEntry.file v)) :
    pathExists n st p = true := by
  cases n <;> simp [pathExists, h]

theorem pathExists_link_step (n : Nat) (st : List (List String × FEntry))
    (p : List String) (t : List Char) (h : lookupE st p = some (FEntry.link t)) :
    pathExists (n + 1) st p = pathExists n st (resolveRel p.dropLast (splitSlash t)) := by
  simp [pathExists, h]

theorem lookupE_removeE_ne :
    ∀ (st : List (List String × FEntry)) (p q : List String), q ≠ p →
      lookupE (removeE st p) q = lookupE st q := by
  intro st p
  induction st with
  | nil => intro q h; rfl
  | cons kv t ih =>
    rcases kv with ⟨k, v⟩
    intro q h
    by_cases hk : k = p
    · rw [removeE, if_pos hk, ih q h]
      simp only [lookupE]
      rw [if_neg fun he => h (he.symm.trans hk)]
    · rw [removeE, if_neg hk]
      simp only [lookupE]
      by_cases hq : k = q
      · rw [if_pos hq, if_pos hq]
      · rw [if_neg hq, if_neg hq, ih q h]

theorem lookupE_setE_self (st : List (List String × FEntry)) (p : List String)
    (v : FEntry) : lookupE (setE st p v) p = some v := by
  simp [setE, lookupE]

theorem lookupE_setE_ne (st : List (List String × FEntry)) (p q : List String)
    (v : FEntry) (h : q ≠ p) : lookupE (setE st p v) q = lookupE st q := by
  simp only [setE, lookupE]
  rw [if_neg fun he => h he.symm, lookupE_removeE_ne st p q h]

/-- C6 amended: dependency linking is idempotent provided the dependency
resolves: if nothing occupies the link name and the dependency name,
resolved one level up from the node's directory, is an existing regular
file, then the first invocation creates exactly the one symlink, the second
invocation is a complete no-op (same state, no trace, no error), and the
link resolves to that same ancestor file both times.  (Without the
resolution proviso the second invocation raises `FileExistsError`, as
`C6_counterexample` shows.)  The first part of the claim — a file with the
base name already present makes the step do nothing — is the
`pathExists`-guarded first branch of `linkDep`, exercised here by the second
invocation. -/
theorem C6_amended_link_idempotent (fs : FS) (dep : String) (v : FileVal)
    (hfree : lookupE fs.store (depLinkName fs dep) = none)
    (hanc : lookupE fs.store
        (resolveRel fs.cwd (splitSlash (depLinkTarget dep))) =
      some (FEntry.file v)) :
    linkDep fs dep =
      (fsWithLink fs dep,
       [Op.symlinkOp (depLinkTarget dep) (depLinkName fs dep)], none) ∧
    linkDep (fsWithLink fs dep) dep = (fsWithLink fs dep, [], none) ∧
    lookupE (fsWithLink fs dep).store
        (resolveRel fs.cwd (splitSlash (depLinkTarget dep))) =
      some (FEntry.file v) := by
  have hne : pathExists linkFuel fs.store (depLinkName fs dep) = false :=
    pathExists_none _ _ _ hfree
  have htgt_ne :
      resolveRel fs.cwd (splitSlash (depLinkTarget dep)) ≠ depLinkName fs dep := by
    intro he
    rw [he, hfree] at hanc
    exact Option.noConfusion hanc
  have hanc1 : lookupE (fsWithLink fs dep).store
      (resolveRel fs.cwd (splitSlash (depLinkTarget dep))) =
      some (FEntry.file v) := by
    show lookupE (setE fs.store (depLinkName fs dep) (FEntry.link (depLinkTarget dep)))
        (resolveRel fs.cwd (splitSlash (depLinkTarget dep))) = some (FEntry.file v)
    rw [lookupE_setE_ne _ _ _ _ htgt_ne, hanc]
  have hself : lookupE (fsWithLink fs dep).store (depLinkName fs dep) =
      some (FEntry.link (depLinkTarget dep)) := lookupE_setE_self _ _ _
  have hpe : pathExists linkFuel (fsWithLink fs dep).store
      (depLinkName (fsWithLink fs dep) dep) = true := by
    have hl : depLinkName (fsWithLink fs dep) dep = depLinkName fs dep := rfl
    have h40 : linkFuel = 39 + 1 := rfl
    rw [hl, h40, pathExists_link_step 39 _ _ _ hself]
    have hdl : (depLinkName fs dep).dropLast = fs.cwd := by
      simp [depLinkName, absName]
    rw [hdl]
    exact pathExists_file _ _ _ _ hanc1
  refine ⟨?_, ?_, hanc1⟩
  · rw [linkDep, if_neg (by simp [hne]), if_neg (by simp [hfree])]
  · rw [linkDep, if_pos (by simp [hpe])]

theorem C6_amended_link_idempotent_witness :
    lookupE ([(["r", "f.txt"], FEntry.file (FileVal.text "X".data))] :
        List (List String × FEntry))
      (depLinkName
        { cwd := ["r", "d"],
          store := [(["r", "f.txt"], FEntry.file (FileVal.text "X".data))] }
        "f.txt") = none ∧
    lookupE ([(["r", "f.txt"], FEntry.file (FileVal.text "X".data))] :
        List (List String × FEntry))
      (resolveRel ["r", "d"] (splitSlash (depLinkTarget "f.txt"))) =
      some (FEntry.file (FileVal.text "X".data)) ∧
    (linkDep
        { cwd := ["r", "d"],
          store := [(["r", "f.txt"], FEntry.file (FileVal.text "X".data))] }
        "f.txt" =
      (fsWithLink
          { cwd := ["r", "d"],
            store := [(["r", "f.txt"], FEntry.file (FileVal.text "X".data))] }
          "f.txt",
       [Op.symlinkOp (depLinkTarget "f.txt")
          (depLinkName
            { cwd := ["r", "d"],
              store := [(["r", "f.txt"], FEntry.file (FileVal.text "X".data))] }
            "f.txt")], none) ∧
    linkDep
        (fsWithLink
          { cwd := ["r", "d"],
            store := [(["r", "f.txt"], FEntry.file (FileVal.text "X".data))] }
          "f.txt")
        "f.txt" =
      (fsWithLink
          { cwd := ["r", "d"],
            store := [(["r", "f.txt"], FEntry.file (FileVal.text "X".data))] }
          "f.txt", [], none) ∧
    lookupE (fsWithLink
          { cwd := ["r", "d"],
            store := [(["r", "f.txt"], FEntry.file (FileVal.text "X".data))] }
          "f.txt").store
        (resolveRel ["r", "d"] (splitSlash (depLinkTarget "f.txt"))) =
      some (FEntry.file (FileVal.text "X".data))) :=
  ⟨by decide, by decide,
   C6_amended_link_idempotent
     { cwd := ["r", "d"],
       store := [(["r", "f.txt"], FEntry.file (FileVal.text "X".data))] }
     "f.txt" (FileVal.text "X".data) (by decide) (by decide)⟩

theorem bakName_ne (n : String) : bakName n ≠ n := by
  intro h
  have hlen := congrArg String.length h
  rw [bakName, String.length_append] at hlen
  simp at hlen
  exact absurd hlen (by decide)

theorem absName_bakName_ne (fs : FS) (n : String) :
    absName fs (bakName n) ≠ absName fs n := by
  intro h
  rw [absName, absName] at h
  have h2 := List.append_cancel_left h
  injection h2 with h3
  exact bakName_ne n h3

theorem doBackup_eq (fs : FS) (n : String) (e : FEntry)
    (h : lookupE fs.store (absName fs n) = some e) :
    doBackup fs n =
      { fs with
        store := setE (removeE fs.store (absName fs n)) (absName fs (bakName n)) e } := by
  rw [doBackup, h]

theorem backup_write_text_preserves (fs : FS) (n r : List Char) (e : FEntry)
    (h : lookupE fs.store (absName fs (String.mk n)) = some e) :
    lookupE (applyWOps fs [WOp.backupOp n, WOp.writeOp n r]).1.store
      (absName fs (bakName (String.mk n))) = some e := by
  show lookupE
      (setE (doBackup fs (String.mk n)).store
        (absName (doBackup fs (String.mk n)) (String.mk n))
        (FEntry.file (FileVal.text r)))
      (absName fs (bakName (String.mk n))) = some e
  rw [doBackup_eq fs (String.mk n) e h]
  simp only [absName]
  rw [lookupE_setE_ne _ _ _ _
    (by simpa [absName] using absName_bakName_ne fs (String.mk n))]
  exact lookupE_setE_self _ _ _

theorem backup_write_nb_preserves (fs : FS) (n : List Char) (nb : Notebook)
    (e : FEntry) (h : lookupE fs.store (absName fs (String.mk n)) = some e) :
    lookupE (applyWOps fs [WOp.backupOp n, WOp.writeNotebook n nb]).1.store
      (absName fs (bakName (String.mk n))) = some e := by
  show lookupE
      (setE (doBackup fs (String.mk n)).store
        (absName (doBackup fs (String.mk n)) (String.mk n))
        (FEntry.file (FileVal.notebook nb)))
      (absName fs (bakName (String.mk n))) = some e
  rw [doBackup_eq fs (String.mk n) e h]
  simp only [absName]
  rw [lookupE_setE_ne _ _ _ _
    (by simpa [absName] using absName_bakName_ne fs (String.mk n))]
  exact lookupE_setE_self _ _ _

/-- C7: every writer strategy backs up its target path (rename-aside) before
opening that path for writing.  First group: the exact operation lists the
four writers perform — each begins with `backup` of its write target, and
for the notebook writer the target backed up and written is the `.ipynb`
name, not the `.py` name.  Second group: as a consequence, when a file
already exists at the target, its content survives every writer under the
backup name — it is never silently overwritten, on any run. -/
theorem C7_backup_before_write (fs : FS) (fn rendered : List Char) (e : FEntry) :
    (write_python fn rendered = [WOp.backupOp fn, WOp.writeOp fn rendered] ∧
     write_shell fn rendered =
       [WOp.backupOp fn, WOp.writeOp fn rendered, WOp.chmodPlusX fn] ∧
     write_generic fn rendered = [WOp.backupOp fn, WOp.writeOp fn rendered] ∧
     write_ipython fn rendered =
       [WOp.backupOp (pyReplace fn ".py".data ".ipynb".data),
        WOp.writeNotebook (pyReplace fn ".py".data ".ipynb".data)
          (ipynbDoc fn rendered)]) ∧
    (lookupE fs.store (absName fs (String.mk fn)) = some e →
      (lookupE (applyWOps fs (write_python fn rendered)).1.store
          (absName fs (bakName (String.mk fn))) = some e ∧
       lookupE (applyWOps fs (write_shell fn rendered)).1.store
          (absName fs (bakName (String.mk fn))) = some e ∧
       lookupE (applyWOps fs (write_generic fn rendered)).1.store
          (absName fs (bakName (String.mk fn))) = some e)) ∧
    (lookupE fs.store
        (absName fs (String.mk (pyReplace fn ".py".data ".ipynb".data))) = some e →
      lookupE (applyWOps fs (write_ipython fn rendered)).1.store
          (absName fs (bakName (String.mk (pyReplace fn ".py".data ".ipynb".data)))) =
        some e) := by
  refine ⟨⟨rfl, rfl, rfl, rfl⟩, fun h => ⟨?_, ?_, ?_⟩, fun h => ?_⟩
  · exact backup_write_text_preserves fs fn rendered e h
  · exact backup_write_text_preserves fs fn rendered e h
  · exact backup_write_text_preserves fs fn rendered e h
  · exact backup_write_nb_preserves fs (pyReplace fn ".py".data ".ipynb".data)
      (ipynbDoc fn rendered) e h

theorem C7_backup_before_write_witness :
    lookupE ([(["w", "run.py"], FEntry.file (FileVal.text "old".data)),
              (["w", "run.ipynb"], FEntry.file (FileVal.text "old".data))] :
        List (List String × FEntry))
      (absName { cwd := ["w"],
                 store := [(["w", "run.py"], FEntry.file (FileVal.text "old".data)),
                           (["w", "run.ipynb"], FEntry.file (FileVal.text "old".data))] }
        (String.mk "run.py".data)) = some (FEntry.file (FileVal.text "old".data)) ∧
    (lookupE (applyWOps
          { cwd := ["w"],
            store := [(["w", "run.py"], FEntry.file (FileVal.text "old".data)),
                      (["w", "run.ipynb"], FEntry.file (FileVal.text "old".data))] }
          (write_python "run.py".data "new".data)).1.store
        (absName { cwd := ["w"],
                   store := [(["w", "run.py"], FEntry.file (FileVal.text "old".data)),
                             (["w", "run.ipynb"], FEntry.file (FileVal.text "old".data))] }
          (bakName (String.mk "run.py".data))) =
      some (FEntry.file (FileVal.text "old".data)) ∧
     lookupE (applyWOps
          { cwd := ["w"],
            store := [(["w", "run.py"], FEntry.file (FileVal.text "old".data)),
                      (["w", "run.ipynb"], FEntry.file (FileVal.text "old".data))] }
          (write_shell "run.py".data "new".data)).1.store
        (absName { cwd := ["w"],
                   store := [(["w", "run.py"], FEntry.file (FileVal.text "old".data)),
                             (["w", "run.ipynb"], FEntry.file (FileVal.text "old".data))] }
          (bakName (String.mk "run.py".data))) =
      some (FEntry.file (FileVal.text "old".data)) ∧
     lookupE (applyWOps
          { cwd := ["w"],
            store := [(["w", "run.py"], FEntry.file (FileVal.text "old".data)),
                      (["w", "run.ipynb"], FEntry.file (FileVal.text "old".data))] }
          (write_generic "run.py".data "new".data)).1.store
        (absName { cwd := ["w"],
                   store := [(["w", "run.py"], FEntry.file (FileVal.text "old".data)),
                             (["w", "run.ipynb"], FEntry.file (FileVal.text "old".data))] }
          (bakName (String.mk "run.py".data))) =
      some (FEntry.file (FileVal.text "old".data))) :=
  ⟨by decide,
   (C7_backup_before_write
     { cwd := ["w"],
       store := [(["w", "run.py"], FEntry.file (FileVal.text "old".data)),
                 (["w", "run.ipynb"], FEntry.file (FileVal.text "old".data))] }
     "run.py".data "new".data (FEntry.file (FileVal.text "old".data))).2.1
     (by decide)⟩

theorem renderFile_fails (env : TEnv) (fs : FS) (fn : String)
    (h : fileFails env fn = true) :
    ∃ e d, renderFile env fs fn = (fs, [], d, some e) := by
  rcases henv : env fn with _ | _ | info
  · exact ⟨RErr.lookupErr fn, [], by simp [renderFile, henv]⟩
  · exact ⟨RErr.decodeErr fn, [], by simp [renderFile, henv]⟩
  · simp only [fileFails, henv] at h
    have hri : info.rendered = none := Option.isNone_iff_eq_none.mp h
    exact ⟨RErr.renderErr fn, info.depends.getD [], by simp [renderFile, henv, hri]⟩

theorem renderFile_ok (env : TEnv) (fs : FS) (fn : String)
    (h : fileFails env fn = false) : (renderFile env fs fn).2.2.2 = none := by
  rcases henv : env fn with _ | _ | info
  · simp only [fileFails, henv] at h
    exact Bool.noConfusion h
  · simp only [fileFails, henv] at h
    exact Bool.noConfusion h
  · simp only [fileFails, henv] at h
    rcases hri : info.rendered with _ | text
    · rw [hri] at h
      simp at h
    · simp [renderFile, henv, hri]

theorem renderFiles_fails_at (env : TEnv) :
    ∀ (pre : List String) (f : String) (post : List String) (fs : FS),
      (∀ g ∈ pre, fileFails env g = false) → fileFails env f = true →
      ∃ e d,
        renderFiles env fs (pre ++ f :: post) =
          ((renderFiles env fs pre).1, (renderFiles env fs pre).2.1, d, some e) := by
  intro pre
  induction pre with
  | nil =>
    intro f post fs _ hf
    obtain ⟨e, d, hrf⟩ := renderFile_fails env fs f hf
    exact ⟨e, d, by simp [renderFiles, hrf]⟩
  | cons g pre ih =>
    intro f post fs hpre hf
    have hg : fileFails env g = false := hpre g (by simp)
    rcases hrg : renderFile env fs g with ⟨fs1, ops1, deps1, e1⟩
    have he1 : e1 = none := by
      have h0 := renderFile_ok env fs g hg
      rw [hrg] at h0
      exact h0
    subst he1
    obtain ⟨e, d, ih1⟩ :=
      ih f post fs1 (fun x hx => hpre x (List.mem_cons_of_mem g hx)) hf
    rcases hP : renderFiles env fs1 pre with ⟨fsP, opsP, depsP, eP⟩
    rw [hP] at ih1
    simp only at ih1
    refine ⟨e, unionDeps deps1 d, ?_⟩
    have hsplit : (g :: pre) ++ f :: post = g :: (pre ++ f :: post) := rfl
    rw [hsplit]
    simp only [renderFiles, hrg, hP]
    rw [ih1]

theorem applyWOps_ops_writer :
    ∀ (wops : List WOp) (fs : FS) (op : Op),
      op ∈ (applyWOps fs wops).2 → isWriterOp op = true := by
  intro wops
  induction wops with
  | nil => intro fs op h; simp [applyWOps] at h
  | cons w rest ih =>
    intro fs op h
    have hsplit : (applyWOps fs (w :: rest)).2 =
        (applyWOp fs w).2 :: (applyWOps (applyWOp fs w).1 rest).2 := rfl
    rw [hsplit] at h
    rcases List.mem_cons.mp h with h1 | h2
    · rw [h1]; cases w <;> rfl
    · exact ih _ op h2

theorem renderFile_ops_writer (env : TEnv) (fs : FS) (fn : String) :
    ∀ op ∈ (renderFile env fs fn).2.1, isWriterOp op = true := by
  rcases henv : env fn with _ | _ | info
  · simp [renderFile, henv]
  · simp [renderFile, henv]
  · rcases hri : info.rendered with _ | text
    · simp [renderFile, henv, hri]
    · intro op h
      simp only [renderFile, henv, hri] at h
      exact applyWOps_ops_writer _ fs op h

theorem renderFiles_ops_writer (env : TEnv) :
    ∀ (files : List String) (fs : FS) (op : Op),
      op ∈ (renderFiles env fs files).2.1 → isWriterOp op = true := by
  intro files
  induction files with
  | nil => intro fs op h; simp [renderFiles] at h
  | cons fn rest ih =>
    intro fs op h
    rcases hrf : renderFile env fs fn with ⟨fs1, ops1, deps1, e1⟩
    have hops1 := renderFile_ops_writer env fs fn
    rw [hrf] at hops1
    cases e1 with
    | some e =>
      simp only [renderFiles, hrf] at h
      exact hops1 op h
    | none =>
      rcases hrr : renderFiles env fs1 rest with ⟨fs2, ops2, deps2, e2⟩
      simp only [renderFiles, hrf, hrr] at h
      rcases List.mem_append.mp h with h1 | h2
      · exact hops1 op h1
      · have := ih fs1 op
        rw [hrr] at this
        exact this h2

/-- C8: when constructing or rendering the k-th declared file of a directory
node raises (missing template, metadata decode failure, or render failure),
the error is fatal for the node's whole render: the final state and trace
are exactly those of the files declared before it — no file declared after
it is written, and the trace consists solely of writer operations, so no
dependency link is created, and no subdirectory is created, entered, or
rendered. -/
theorem C8_failure_is_fatal (env : TEnv) (oracle : List String → List String)
    (name : String) (pre : List String) (f : String) (post : List String)
    (subs next : TemplateDir) (fs : FS)
    (hpre : ∀ g ∈ pre, fileFails env g = false)
    (hf : fileFails env f = true) :
    (∃ e, TemplateDir.render env oracle
        (TemplateDir.mk name (pre ++ f :: post) subs next) fs =
      ((renderFiles env fs pre).1, (renderFiles env fs pre).2.1, some e)) ∧
    ∀ op ∈ (renderFiles env fs pre).2.1, isWriterOp op = true := by
  obtain ⟨e, d, hA⟩ := renderFiles_fails_at env pre f post fs hpre hf
  refine ⟨⟨e, ?_⟩, fun op h => renderFiles_ops_writer env pre fs op h⟩
  simp only [TemplateDir.render, hA]

theorem C8_failure_is_fatal_witness :
    (∀ g ∈ (["a.py", "b.sh"] : List String), fileFails envThirdBad g = false) ∧
    fileFails envThirdBad "c.py" = true ∧
    ((∃ e, TemplateDir.render envThirdBad (fun l => l)
        (TemplateDir.mk "" (["a.py", "b.sh"] ++ "c.py" :: ["d.py", "e.py"])
          TemplateDir.nil TemplateDir.nil) { cwd := ["w"], store := [] } =
      ((renderFiles envThirdBad { cwd := ["w"], store := [] } ["a.py", "b.sh"]).1,
       (renderFiles envThirdBad { cwd := ["w"], store := [] } ["a.py", "b.sh"]).2.1,
       some e)) ∧
    ∀ op ∈ (renderFiles envThirdBad { cwd := ["w"], store := [] }
        ["a.py", "b.sh"]).2.1, isWriterOp op = true) :=
  ⟨by decide, by decide,
   C8_failure_is_fatal envThirdBad (fun l => l) "" ["a.py", "b.sh"] "c.py"
     ["d.py", "e.py"] TemplateDir.nil TemplateDir.nil { cwd := ["w"], store := [] }
     (by decide) (by decide)⟩

theorem linkDep_ops (fs : FS) (dep : String) :
    (linkDep fs dep).2.1 = [] ∨
    (linkDep fs dep).2.1 =
      [Op.symlinkOp (depLinkTarget dep) (depLinkName fs dep)] := by
  rw [linkDep]
  split
  · exact Or.inl rfl
  · split
    · exact Or.inl rfl
    · exact Or.inr rfl

theorem linkDeps_ops_symlink :
    ∀ (l : List String) (fs : FS) (op : Op), op ∈ (linkDeps fs l).2.1 →
      ∃ t p, op = Op.symlinkOp t p := by
  intro l
  induction l with
  | nil => intro fs op h; simp [linkDeps] at h
  | cons d rest ih =>
    intro fs op h
    rcases hld : linkDep fs d with ⟨fs1, ops1, e1⟩
    have hops1 := linkDep_ops fs d
    rw [hld] at hops1
    simp only at hops1
    cases e1 with
    | some e =>
      simp only [linkDeps, hld] at h
      rcases hops1 with h1 | h1 <;> rw [h1] at h
      · simp at h
      · rw [List.mem_singleton] at h
        exact ⟨_, _, h⟩
    | none =>
      rcases hlr : linkDeps fs1 rest with ⟨fs2, ops2, e2⟩
      simp only [linkDeps, hld, hlr] at h
      rcases List.mem_append.mp h with h1 | h2
      · rcases hops1 with h0 | h0 <;> rw [h0] at h1
        · simp at h1
        · rw [List.mem_singleton] at h1
          exact ⟨_, _, h1⟩
      · have := ih fs1 op
        rw [hlr] at this
        exact this h2

theorem mkdirOf_of_writerOp (op : Op) (h : isWriterOp op = true) :
    mkdirOf op = none := by
  cases op <;> first | rfl | exact Bool.noConfusion h

theorem filterMap_mkdirOf_preOps (fs : FS) (name : String) :
    (preOps fs name).filterMap mkdirOf = [fs.cwd ++ [name]] := by
  simp [preOps, mkdirOf, absName, List.filterMap_cons]

theorem renderChain_mkdirs (env : TEnv) (oracle : List String → List String) :
    ∀ (t : TemplateDir) (fs : FS),
      (renderChain env oracle t fs).2.2 = none →
      ((renderChain env oracle t fs).2.1).filterMap mkdirOf =
        mkdirPlanChain fs.cwd t := by
  intro t
  induction t with
  | nil => intro fs _; rfl
  | mk name files subs next ihs ihn =>
    intro fs h
    rcases h4 : renderFiles env (fsEnterChild fs name) files with ⟨fs4, ops4, deps4, e4⟩
    cases e4 with
    | some e =>
      simp only [renderChain, h4] at h
      exact Option.noConfusion h
    | none =>
      rcases h5 : linkDeps fs4 (oracle deps4) with ⟨fs5, ops5, e5⟩
      cases e5 with
      | some e =>
        simp only [renderChain, h4, h5] at h
        exact Option.noConfusion h
      | none =>
        rcases h6 : renderChain env oracle subs fs5 with ⟨fs6, ops6, e6⟩
        cases e6 with
        | some e =>
          simp only [renderChain, h4, h5, h6] at h
          exact Option.noConfusion h
        | none =>
          rcases hr : renderChain env oracle next { fs6 with cwd := fs.cwd } with
            ⟨fs8, ops8, e8⟩
          simp only [renderChain, h4, h5, h6, hr] at h ⊢
          have hm4 : ops4.filterMap mkdirOf = [] := by
            rw [List.filterMap_eq_nil_iff]
            intro op hop
            have hw := renderFiles_ops_writer env files (fsEnterChild fs name) op
            rw [h4] at hw
            exact mkdirOf_of_writerOp op (hw hop)
          have hm5 : ops5.filterMap mkdirOf = [] := by
            rw [List.filterMap_eq_nil_iff]
            intro op hop
            have hs := linkDeps_ops_symlink (oracle deps4) fs4 op
            rw [h5] at hs
            obtain ⟨t, p, rfl⟩ := hs hop
            rfl
          have hcwd4 : fs4.cwd = fs.cwd ++ [name] := by
            have := renderFiles_cwd env files (fsEnterChild fs name)
            rw [h4] at this
            exact this
          have hcwd5 : fs5.cwd = fs.cwd ++ [name] := by
            have := linkDeps_cwd (oracle deps4) fs4
            rw [h5] at this
            simp only at this
            rw [this, hcwd4]
          have hm6 : ops6.filterMap mkdirOf = mkdirPlanChain (fs.cwd ++ [name]) subs := by
            have := ihs fs5
            rw [h6] at this
            simp only at this
            rw [← hcwd5]
            exact this trivial
          have hm8 : ops8.filterMap mkdirOf = mkdirPlanChain fs.cwd next := by
            have := ihn { fs6 with cwd := fs.cwd }
            rw [hr] at this
            simp only at this
            exact this h
          simp only [List.filterMap_append, filterMap_mkdirOf_preOps, hm4, hm5,
            hm6, hm8, mkdirPlanChain]
          simp [mkdirOf]

/-- C4 amended: the rendering of files and the creation of subdirectories
follow declaration order — every error-free render creates exactly the
directories of the declared pre-order plan, in that order, for any
set-iteration order of the dependency sets — and a run's entire outcome is
a deterministic function of the layout, the template store, and the
set-iteration order.  Dependency symlinks, however, are created by
iterating a Python set, so their order within one node follows the set's
iteration order, not the declaration order (`C4_counterexample`). -/
theorem C4_amended_mkdir_declared_order (env : TEnv)
    (oracle : List String → List String) (d : TemplateDir) (fs : FS)
    (h : (TemplateDir.render env oracle d fs).2.2 = none) :
    ((TemplateDir.render env oracle d fs).2.1).filterMap mkdirOf =
      mkdirPlanChain fs.cwd (subsOf d) := by
  cases d with
  | nil => rfl
  | mk name files subs next =>
    rcases h1 : renderFiles env fs files with ⟨fs1, ops1, deps1, e1⟩
    cases e1 with
    | some e =>
      simp only [TemplateDir.render, h1] at h
      exact Option.noConfusion h
    | none =>
      rcases h2 : linkDeps fs1 (oracle deps1) with ⟨fs2, ops2, e2⟩
      cases e2 with
      | some e =>
        simp only [TemplateDir.render, h1, h2] at h
        exact Option.noConfusion h
      | none =>
        rcases h3 : renderChain env oracle subs fs2 with ⟨fs3, ops3, e3⟩
        simp only [TemplateDir.render, h1, h2, h3] at h ⊢
        have hm1 : ops1.filterMap mkdirOf = [] := by
          rw [List.filterMap_eq_nil_iff]
          intro op hop
          have hw := renderFiles_ops_writer env files fs op
          rw [h1] at hw
          exact mkdirOf_of_writerOp op (hw hop)
        have hm2 : ops2.filterMap mkdirOf = [] := by
          rw [List.filterMap_eq_nil_iff]
          intro op hop
          have hs := linkDeps_ops_symlink (oracle deps1) fs1 op
          rw [h2] at hs
          obtain ⟨t, p, rfl⟩ := hs hop
          rfl
        have hcwd1 : fs1.cwd = fs.cwd := by
          have := renderFiles_cwd env files fs
          rw [h1] at this
          exact this
        have hcwd2 : fs2.cwd = fs.cwd := by
          have := linkDeps_cwd (oracle deps1) fs1
          rw [h2] at this
          simp only at this
          rw [this, hcwd1]
        have hm3 : ops3.filterMap mkdirOf = mkdirPlanChain fs.cwd subs := by
          have := renderChain_mkdirs env oracle subs fs2
          rw [h3] at this
          simp only at this
          rw [← hcwd2]
          exact this h
        simp only [List.filterMap_append, hm1, hm2, hm3, subsOf]
        simp

theorem C4_amended_mkdir_declared_order_witness :
    (TemplateDir.render envAllOk (fun l => l) dirTwoChildren
        { cwd := ["base"], store := [] }).2.2 = none ∧
    ((TemplateDir.render envAllOk (fun l => l) dirTwoChildren
        { cwd := ["base"], store := [] }).2.1).filterMap mkdirOf =
      [["base", "one"], ["base", "two"]] :=
  ⟨by decide,
   by
    have h := C4_amended_mkdir_declared_order envAllOk (fun l => l) dirTwoChildren
      { cwd := ["base"], store := [] } (by decide)
    rw [h]
    decide⟩

theorem templateWriter_false_ne_ipython (fn : List Char) :
    templateWriter false fn ≠ WriterKind.ipython := by
  unfold templateWriter write_funcs
  split
  · decide
  · split
    · decide
    · decide

theorem runWriter_no_nb (k : WriterKind) (hk : k ≠ WriterKind.ipython)
    (bn r : List Char) : ∀ w ∈ runWriter k bn r, wopIsNb w = false := by
  cases k with
  | ipython => exact absurd rfl hk
  | python =>
    intro w hw
    simp only [runWriter, write_python, List.mem_cons, List.mem_singleton,
      List.not_mem_nil, or_false] at hw
    rcases hw with rfl | rfl <;> rfl
  | shell =>
    intro w hw
    simp only [runWriter, write_shell, List.mem_cons, List.mem_singleton,
      List.not_mem_nil, or_false] at hw
    rcases hw with rfl | rfl | rfl <;> rfl
  | generic =>
    intro w hw
    simp only [runWriter, write_generic, List.mem_cons, List.mem_singleton,
      List.not_mem_nil, or_false] at hw
    rcases hw with rfl | rfl <;> rfl

theorem applyWOps_no_nb :
    ∀ (wops : List WOp) (fs : FS), (∀ w ∈ wops, wopIsNb w = false) →
      ∀ op ∈ (applyWOps fs wops).2, isNbWrite op = false := by
  intro wops
  induction wops with
  | nil => intro fs _ op h; simp [applyWOps] at h
  | cons w rest ih =>
    intro fs hw op h
    have hsplit : (applyWOps fs (w :: rest)).2 =
        (applyWOp fs w).2 :: (applyWOps (applyWOp fs w).1 rest).2 := rfl
    rw [hsplit] at h
    rcases List.mem_cons.mp h with h1 | h2
    · rw [h1]
      cases w with
      | backupOp n => rfl
      | writeOp n c => rfl
      | writeNotebook n nb =>
        have hww := hw (WOp.writeNotebook n nb) (List.mem_cons_self _ _)
        exact Bool.noConfusion hww
      | chmodPlusX n => rfl
    · exact ih _ (fun x hx => hw x (List.mem_cons_of_mem w hx)) op h2

theorem renderFile_no_nb (env : TEnv) (fs : FS) (fn : String) :
    ∀ op ∈ (renderFile env fs fn).2.1, isNbWrite op = false := by
  rcases henv : env fn with _ | _ | info
  · simp [renderFile, henv]
  · simp [renderFile, henv]
  · rcases hri : info.rendered with _ | text
    · simp [renderFile, henv, hri]
    · intro op h
      simp only [renderFile, henv, hri] at h
      exact applyWOps_no_nb _ fs
        (runWriter_no_nb _ (templateWriter_false_ne_ipython fn.data) _ text) op h

theorem renderFiles_no_nb (env : TEnv) :
    ∀ (files : List String) (fs : FS) (op : Op),
      op ∈ (renderFiles env fs files).2.1 → isNbWrite op = false := by
  intro files
  induction files with
  | nil => intro fs op h; simp [renderFiles] at h
  | cons fn rest ih =>
    intro fs op h
    rcases hrf : renderFile env fs fn with ⟨fs1, ops1, deps1, e1⟩
    have hops1 := renderFile_no_nb env fs fn
    rw [hrf] at hops1
    cases e1 with
    | some e =>
      simp only [renderFiles, hrf] at h
      exact hops1 op h
    | none =>
      rcases hrr : renderFiles env fs1 rest with ⟨fs2, ops2, deps2, e2⟩
      simp only [renderFiles, hrf, hrr] at h
      rcases List.mem_append.mp h with h1 | h2
      · exact hops1 op h1
      · have := ih fs1 op
        rw [hrr] at this
        exact this h2

theorem preOps_no_nb (fs : FS) (name : String) :
    ∀ op ∈ preOps fs name, isNbWrite op = false := by
  intro op h
  simp only [preOps, List.mem_cons, List.mem_singleton, List.not_mem_nil,
    or_false] at h
  rcases h with rfl | rfl | rfl <;> rfl

theorem linkOps_no_nb (l : List String) (fs : FS) :
    ∀ op ∈ (linkDeps fs l).2.1, isNbWrite op = false := by
  intro op h
  obtain ⟨t, p, rfl⟩ := linkDeps_ops_symlink l fs op h
  rfl

theorem renderChain_no_nb (env : TEnv) (oracle : List String → List String) :
    ∀ (t : TemplateDir) (fs : FS) (op : Op),
      op ∈ (renderChain env oracle t fs).2.1 → isNbWrite op = false := by
  intro t
  induction t with
  | nil => intro fs op h; simp [renderChain] at h
  | mk name files subs next ihs ihn =>
    intro fs op h
    rcases h4 : renderFiles env (fsEnterChild fs name) files with ⟨fs4, ops4, deps4, e4⟩
    have hops4 := renderFiles_no_nb env files (fsEnterChild fs name)
    rw [h4] at hops4
    cases e4 with
    | some e =>
      simp only [renderChain, h4] at h
      rcases List.mem_append.mp h with h1 | h2
      · exact preOps_no_nb fs name op h1
      · exact hops4 op h2
    | none =>
      rcases h5 : linkDeps fs4 (oracle deps4) with ⟨fs5, ops5, e5⟩
      have hops5 := linkOps_no_nb (oracle deps4) fs4
      rw [h5] at hops5
      cases e5 with
      | some e =>
        simp only [renderChain, h4, h5] at h
        rcases List.mem_append.mp h with h1 | h2
        · rcases List.mem_append.mp h1 with h1a | h1b
          · exact preOps_no_nb fs name op h1a
          · exact hops4 op h1b
        · exact hops5 op h2
      | none =>
        rcases h6 : renderChain env oracle subs fs5 with ⟨fs6, ops6, e6⟩
        have hops6 := ihs fs5 op
        rw [h6] at hops6
        cases e6 with
        | some e =>
          simp only [renderChain, h4, h5, h6] at h
          rcases List.mem_append.mp h with h1 | h2
          · rcases List.mem_append.mp h1 with h1a | h1b
            · rcases List.mem_append.mp h1a with h1c | h1d
              · exact preOps_no_nb fs name op h1c
              · exact hops4 op h1d
            · exact hops5 op h1b
          · exact hops6 h2
        | none =>
          rcases hr : renderChain env oracle next { fs6 with cwd := fs.cwd } with
            ⟨fs8, ops8, e8⟩
          have hops8 := ihn { fs6 with cwd := fs.cwd } op
          rw [hr] at hops8
          simp only [renderChain, h4, h5, h6, hr] at h
          rcases List.mem_append.mp h with h1 | h2
          · rcases List.mem_append.mp h1 with h1a | h1b
            · rcases List.mem_append.mp h1a with h1c | h1d
              · rcases List.mem_append.mp h1c with h1e | h1f
                · rcases List.mem_append.mp h1e with h1g | h1h
                  · exact preOps_no_nb fs name op h1g
                  · exact hops4 op h1h
                · exact hops5 op h1f
              · exact hops6 h1d
            · simp only [List.mem_singleton] at h1b
              rw [h1b]
              rfl
          · exact hops8 h2

theorem render_no_nb (env : TEnv) (oracle : List String → List String)
    (d : TemplateDir) (fs : FS) :
    ∀ op ∈ (TemplateDir.render env oracle d fs).2.1, isNbWrite op = false := by
  cases d with
  | nil => intro op h; simp [TemplateDir.render] at h
  | mk name files subs next =>
    intro op h
    rcases h1 : renderFiles env fs files with ⟨fs1, ops1, deps1, e1⟩
    have hops1 := renderFiles_no_nb env files fs
    rw [h1] at hops1
    cases e1 with
    | some e =>
      simp only [TemplateDir.render, h1] at h
      exact hops1 op h
    | none =>
      rcases h2 : linkDeps fs1 (oracle deps1) with ⟨fs2, ops2, e2⟩
      have hops2 := linkOps_no_nb (oracle deps1) fs1
      rw [h2] at hops2
      cases e2 with
      | some e =>
        simp only [TemplateDir.render, h1, h2] at h
        rcases List.mem_append.mp h with ha | hb
        · exact hops1 op ha
        · exact hops2 op hb
      | none =>
        rcases h3 : renderChain env oracle subs fs2 with ⟨fs3, ops3, e3⟩
        have hops3 := renderChain_no_nb env oracle subs fs2 op
        rw [h3] at hops3
        simp only [TemplateDir.render, h1, h2, h3] at h
        rcases List.mem_append.mp h with ha | hb
        · rcases List.mem_append.mp ha with hc | hd
          · exact hops1 op hc
          · exact hops2 op hd
        · exact hops3 hb

/-- C10: every run initiated through `TemplateProject.do()` constructs each
`Template` with the notebook flag at its default `False`
(`templ = Template(fn)`), so the notebook writer is never selected: the
selected writer is never the notebook writer for any file name, `.py` files
route to the python writer, `.sh` files to the shell writer, anything else
to the generic writer, and no run of `TemplateProject.do` — whatever the
template store, set-iteration order, or starting state — ever writes a
notebook document. -/
theorem C10_default_routing :
    (∀ fn : List Char, templateWriter false fn ≠ WriterKind.ipython) ∧
    (∀ fn : List Char, pyExtLast fn = "py".data →
      templateWriter false fn = WriterKind.python) ∧
    (∀ fn : List Char, pyExtLast fn = "sh".data →
      templateWriter false fn = WriterKind.shell) ∧
    (∀ fn : List Char, pyExtLast fn ≠ "py".data → pyExtLast fn ≠ "sh".data →
      templateWriter false fn = WriterKind.generic) ∧
    (∀ (env : TEnv) (oracle : List String → List String) (fs : FS),
      ∀ op ∈ (TemplateProject_do env oracle fs).2.1, isNbWrite op = false) := by
  refine ⟨templateWriter_false_ne_ipython, ?_, ?_, ?_, ?_⟩
  · intro fn h
    rw [templateWriter, write_funcs, if_pos h]
    rfl
  · intro fn h
    rw [templateWriter, write_funcs, if_neg (by rw [h]; decide), if_pos h]
  · intro fn h1 h2
    rw [templateWriter, write_funcs, if_neg h1, if_neg h2]
  · intro env oracle fs op h
    exact render_no_nb env oracle get_layout fs op h

theorem C10_default_routing_witness :
    templateWriter false "cluster.py".data ≠ WriterKind.ipython ∧
    (pyExtLast "cluster.py".data = "py".data ∧
      templateWriter false "cluster.py".data = WriterKind.python) ∧
    (pyExtLast "run.sh".data = "sh".data ∧
      templateWriter false "run.sh".data = WriterKind.shell) ∧
    (pyExtLast "README.md".data ≠ "py".data ∧
      pyExtLast "README.md".data ≠ "sh".data ∧
      templateWriter false "README.md".data = WriterKind.generic) ∧
    (∀ op ∈ (TemplateProject_do envAllOk (fun l => l)
        { cwd := ["base"], store := [] }).2.1, isNbWrite op = false) :=
  ⟨C10_default_routing.1 "cluster.py".data,
   ⟨by decide, C10_default_routing.2.1 "cluster.py".data (by decide)⟩,
   ⟨by decide, C10_default_routing.2.2.1 "run.sh".data (by decide)⟩,
   ⟨by decide, by decide,
    C10_default_routing.2.2.2.1 "README.md".data (by decide) (by decide)⟩,
   C10_default_routing.2.2.2.2 envAllOk (fun l => l) { cwd := ["base"], store := [] }⟩

end ProjectTemplate
